import Mathlib

/-!
Shallow embedding of the synchronization core of trakt-multi-scrobbler:
the Trakt sync engine (src/app/trakt_client.py), the event normalizer and
cache refresh (src/app/main.py, src/app/store.py), and the SQLite-backed
rule store (src/app/db.py).

Conventions:
- Python floats (timestamps, percentages, token expiries) are modelled as
  rationals; the code only compares them, subtracts, takes maxima, tests
  truthiness (non-zero) and divides by constants, so the embedding is
  faithful on those operations.
- Python dicts are modelled as insertion-ordered association lists with
  first-match lookup, which matches dict semantics for the operations the
  code performs (get, membership test, item assignment, setdefault, pop).
- Network calls are modelled by passing their outcomes as explicit inputs:
  a success flag for a history POST, a list of HTTP outcomes for the
  401-retry recursion, an optional fetched value for GET endpoints.
-/

namespace Scrobbler

/-- Insertion-ordered dict update: replace the first binding of the key in
place, keeping its position, or append a fresh binding at the end; this is
CPython dict item assignment. -/
def upsert {α : Type} (l : List (String × α)) (k : String) (v : α) :
    List (String × α) :=
  match l with
  | [] => [(k, v)]
  | (k', v') :: rest => if k' = k then (k, v) :: rest else (k', v') :: upsert rest k v

/-- Python str.strip modelled on the character list: drop whitespace from
both ends. Char.isWhitespace covers the ASCII whitespace every input of
these claims uses. -/
def pyStrip (s : String) : String :=
  String.mk ((s.toList.dropWhile Char.isWhitespace).reverse.dropWhile Char.isWhitespace).reverse

/-- Python str.lower modelled characterwise with the ASCII case mapping. -/
def pyLower (s : String) : String := String.mk (s.toList.map Char.toLower)

/-- Helper for splitFirstColon: scan for the first colon, accumulating the
prefix in reverse. -/
def splitFirstColonGo : List Char → List Char → Option (String × String)
  | [], _ => none
  | c :: cs, acc =>
    if c = ':' then some (String.mk acc.reverse, String.mk cs)
    else splitFirstColonGo cs (c :: acc)

/-- Python split with maxsplit 1 at a colon: the text before the first
colon and the whole text after it, or none when the string contains no
colon (which also covers the empty string). -/
def splitFirstColon (s : String) : Option (String × String) :=
  splitFirstColonGo s.toList []

/-- src/app/trakt_client.py lines 28-39, _trakt_ids: convert a providerKey
string like "tmdb:123" into the Trakt ids dict. The dict has at most one
entry, so it is modelled as an optional provider/identifier pair, none
standing for the empty dict. The guard of line 30 (empty string or no
colon) is exactly splitFirstColon returning none. -/
def trakt_ids (provider_key : String) : Option (String × String) :=
  match splitFirstColon provider_key with
  | none => none
  | some (p, rest) =>
    let provider := pyLower (pyStrip p)
    let ident := pyStrip rest
    if provider = "" then none
    else if ident = "" then none
    else if provider = "tmdb" ∨ provider = "imdb" ∨ provider = "tvdb" then
      some (provider, ident)
    else none

/-- One account's per-title rule table: ruleKey to explicit allow/deny. -/
abbrev Rules := List (String × Bool)

/-- All accounts' rule tables (TraktService.account_items). -/
abbrev AccountItems := List (String × Rules)

/-- src/app/trakt_client.py lines 214-222, TraktService.item_allowed,
specialised to one account's rule table (rules is
self.account_items.get(username) or the empty dict). -/
def itemAllowedRules (rules : Rules) (provider_key group_key : String) : Bool :=
  if provider_key = "" ∧ group_key = "" then false
  else if provider_key ≠ "" ∧ (rules.lookup provider_key).isSome then
    (rules.lookup provider_key).getD false
  else if group_key ≠ "" ∧ (rules.lookup group_key).isSome then
    (rules.lookup group_key).getD false
  else false

/-- src/app/trakt_client.py lines 214-222, TraktService.item_allowed. -/
def item_allowed (account_items : AccountItems) (username provider_key group_key : String) : Bool :=
  itemAllowedRules ((account_items.lookup username).getD []) provider_key group_key

/-- The explicit rule stored for a key, if any: none when the key is empty
or has no entry in the table. Used to state the rule-evaluation claims. -/
def ruleFor (rules : Rules) (k : String) : Option Bool :=
  if k = "" then none else rules.lookup k

/-- A normalized watch event as consumed by sync_events: the dict built by
refresh_cache at src/app/main.py lines 507-529, restricted to the fields
sync_events reads (type, providerKey, groupKey, completed, date, and the
title/seriesName pair used for diagnostic samples). -/
structure Event where
  type : String
  providerKey : String
  groupKey : String
  title : String
  seriesName : String
  completed : Bool
  date : ℚ
  deriving Repr, DecidableEq

/-- One history record as built at src/app/trakt_client.py line 353: the
Trakt ids pair plus the watched-at timestamp. The code renders the
timestamp through _iso, a pure injective function of the value, so the
record keeps the rational timestamp itself. -/
abbrev Record := (String × String) × ℚ

/-- Per-account loop state of sync_events, src/app/trakt_client.py lines
319-325. -/
structure AccState where
  movies : List Record
  episodes : List Record
  maxTsSent : ℚ
  skippedMissingIds : Nat
  skippedDisallowed : Nat
  sampleMissing : List (String × String × String)
  sampleDisallowed : List (String × String × String)
  deriving Repr, DecidableEq

def initAccState : AccState := ⟨[], [], 0, 0, 0, [], []⟩

/-- A diagnostic sample entry: title or seriesName, providerKey, groupKey
(src/app/trakt_client.py lines 334-340 and 345-351). -/
def sampleOf (ev : Event) : String × String × String :=
  (if ev.title ≠ "" then ev.title else ev.seriesName, ev.providerKey, ev.groupKey)

/-- Body of the per-event loop of sync_events, src/app/trakt_client.py
lines 326-360, for one enabled account with rule table rules and cursor
last. -/
def stepEvent (rules : Rules) (last : ℚ) (st : AccState) (ev : Event) : AccState :=
  if ev.date ≤ last ∨ ev.completed = false then st
  else
    match trakt_ids ev.providerKey with
    | none =>
      { st with
        skippedMissingIds := st.skippedMissingIds + 1
        sampleMissing :=
          if st.sampleMissing.length < 5 then st.sampleMissing ++ [sampleOf ev]
          else st.sampleMissing }
    | some ids =>
      if itemAllowedRules rules ev.providerKey ev.groupKey = false then
        { st with
          skippedDisallowed := st.skippedDisallowed + 1
          sampleDisallowed :=
            if st.sampleDisallowed.length < 5 then st.sampleDisallowed ++ [sampleOf ev]
            else st.sampleDisallowed }
      else
        if pyLower ev.type = "movie" then
          { st with
            movies := st.movies ++ [(ids, ev.date)]
            maxTsSent := max st.maxTsSent ev.date }
        else if pyLower ev.type = "episode" then
          { st with
            episodes := st.episodes ++ [(ids, ev.date)]
            maxTsSent := max st.maxTsSent ev.date }
        else st

/-- src/app/trakt_client.py line 310: sort events ascending by date. -/
def sortEvents (events : List Event) : List Event :=
  events.mergeSort (fun a b => decide (a.date ≤ b.date))

/-- Per-account outcome of one sync_events pass: the new cursor, the final
loop state and whether the push succeeded. postOk is the outcome the
downstream endpoint gives to a non-empty POST for this account (the
_post_history call at src/app/trakt_client.py line 366); an empty payload
is reported successful without any request being made (lines 279-280).
Covers lines 318-371 for one enabled account. -/
def syncAccount (rules : Rules) (last : ℚ) (events : List Event) (postOk : Bool) :
    ℚ × AccState × Bool :=
  let st := (sortEvents events).foldl (stepEvent rules last) initAccState
  let ok := if st.movies = [] ∧ st.episodes = [] then true else postOk
  let last' :=
    if ok ∧ ¬(st.movies = [] ∧ st.episodes = []) then
      (if st.maxTsSent = 0 then last else st.maxTsSent)
    else last
  (last', st, ok)

/-- The cursor map over all accounts after one sync_events call,
src/app/trakt_client.py lines 310-383: disabled accounts are skipped,
each enabled account runs the per-event loop against the shared sorted
event list and writes back its cursor. accounts carries each username with
its enabled flag in dict iteration order; postOk is each account's
downstream POST outcome. -/
def sync_events (accounts : List (String × Bool)) (account_items : AccountItems)
    (last_synced : List (String × ℚ)) (events : List Event) (postOk : String → Bool) :
    List (String × ℚ) :=
  accounts.foldl
    (fun ls acc =>
      if acc.2 = false then ls
      else
        let last := (ls.lookup acc.1).getD 0
        let rules := (account_items.lookup acc.1).getD []
        let r := syncAccount rules last events (postOk acc.1)
        upsert ls acc.1 r.1)
    last_synced

/-- Outcome of one POST to the downstream history endpoint. -/
inductive PostResp where
  | ok
  | unauthorized
  | err
  deriving Repr, DecidableEq

/-- The retry recursion of _post_history, src/app/trakt_client.py lines
284-297, entered with a valid-looking token: responses is the sequence of
outcomes the endpoint gives to successive POST attempts (an exhausted list
stands for a network exception), refreshes the sequence of outcomes of
successive refresh-token exchanges. Returns the success flag together with
how many POSTs were issued and how many refresh exchanges were attempted.
On a 401 the code refreshes and, if the refresh succeeded, re-enters
_post_history recursively with no retry bound. -/
def postHistoryGo : List PostResp → List Bool → Nat → Nat → Bool × Nat × Nat
  | [], _, posts, refs => (false, posts, refs)
  | PostResp.ok :: _, _, posts, refs => (true, posts + 1, refs)
  | PostResp.err :: _, _, posts, refs => (false, posts + 1, refs)
  | PostResp.unauthorized :: _, [], posts, refs => (false, posts + 1, refs + 1)
  | PostResp.unauthorized :: rest, b :: rs, posts, refs =>
    if b then postHistoryGo rest rs (posts + 1) (refs + 1)
    else (false, posts + 1, refs + 1)

/-- src/app/trakt_client.py lines 278-297, _post_history: the empty-payload
short circuit, the pre-flight expiry refresh done by _authorized_client
(lines 265-276), and the 401 retry recursion. -/
def post_history (payloadEmpty expired : Bool) (responses : List PostResp)
    (refreshes : List Bool) : Bool × Nat × Nat :=
  if payloadEmpty then (true, 0, 0)
  else if expired then
    match refreshes with
    | [] => (false, 0, 1)
    | b :: rs => if b then postHistoryGo responses rs 0 1 else (false, 0, 1)
  else postHistoryGo responses refreshes 0 0

/-- src/app/trakt_client.py lines 224-236, TraktService.prune_rules acting
on the in-memory account_items table (the SQLite mirror in src/app/db.py
lines 155-164 deletes the same rows whenever the in-memory table changed).
The valid-keys set is modelled as a list queried by membership. -/
def prune_rules (account_items : AccountItems) (valid_keys : List String) : AccountItems :=
  if valid_keys = [] then account_items
  else account_items.map (fun ur => (ur.1, ur.2.filter (fun kv => valid_keys.contains kv.1)))

/-- src/app/main.py lines 175-180, _provider_key. -/
def provider_key (provider ident : String) : String :=
  let p := pyLower (pyStrip provider)
  let i := pyStrip ident
  if p = "" ∨ i = "" then "" else p ++ ":" ++ i

/-- The raw ProviderIds map of a Jellyfin item: the Tmdb, Imdb and Tvdb
entries after the str(.. or ..) coercion at src/app/main.py lines 187-195
(the capitalised/lowercase key fallback is folded into one field). -/
structure ProviderIds where
  tmdb : String
  imdb : String
  tvdb : String
  deriving Repr, DecidableEq

/-- src/app/main.py lines 183-196, _provider_key_from_ids: prefer TMDB,
then IMDB, then TVDB. -/
def provider_key_from_ids (ids : ProviderIds) : String :=
  let t := pyStrip ids.tmdb
  if t ≠ "" then provider_key "tmdb" t
  else
    let i := pyStrip ids.imdb
    if i ≠ "" then provider_key "imdb" i
    else
      let v := pyStrip ids.tvdb
      if v ≠ "" then provider_key "tvdb" v
      else ""

/-- The UserData fields read by refresh_cache at src/app/main.py lines
477-484: the Played flag after bool(), the PlayedPercentage after the
float() attempt (none stands for a missing or malformed value, which the
code degrades to 0.0), and the LastPlayedDate already parsed by
_ts_from_iso (0 when absent or unparseable, lines 352-363). -/
structure UserData where
  played : Bool
  playedPercentage : Option ℚ
  lastPlayedTs : ℚ
  deriving Repr, DecidableEq

/-- played_pct at src/app/main.py lines 478-482: the played percentage
divided by 100, defaulting to 0.0 on missing or malformed input. -/
def played_pct (ud : UserData) : ℚ := ud.playedPercentage.getD 0 / 100

/-- is_completed at src/app/main.py line 483. -/
def is_completed (watchThreshold : ℚ) (ud : UserData) : Bool :=
  ud.played || decide (watchThreshold ≤ played_pct ud)

/-- One raw Jellyfin item as consumed by the refresh loop, src/app/main.py
lines 450-530. Identifier and name fields carry the values before the
str/strip coercions the loop applies. The two thumbnail fields carry the
already-resolved local thumbnail URLs, thumb_url and series_thumb_url
after the _jellyfin_thumb and _cache_thumb calls of lines 462-492;
thumbnail resolution itself is HTTP and disk I/O outside these claims. -/
structure RawItem where
  type : String
  id : String
  seriesId : String
  parentOrSeasonId : String
  providerIds : ProviderIds
  name : String
  seriesName : String
  productionYear : String
  userData : UserData
  thumb : String
  seriesThumb : String
  deriving Repr, DecidableEq

/-- typ at src/app/main.py line 454. -/
def itemType (it : RawItem) : String := pyLower it.type

/-- item_id at src/app/main.py line 458. -/
def itemId (it : RawItem) : String := pyStrip it.id

/-- show_id at src/app/main.py line 486. -/
def showId (it : RawItem) : String := pyStrip it.seriesId

/-- The eligibility gate of the refresh loop, src/app/main.py lines
454-460: only movies and episodes with a non-empty id are processed. -/
def itemEligible (it : RawItem) : Bool :=
  decide ((itemType it = "movie" ∨ itemType it = "episode") ∧ itemId it ≠ "")

/-- group_key at src/app/main.py line 495: the item id for movies, the
series id for episodes. -/
def groupKeyOf (it : RawItem) : String :=
  if itemType it = "movie" then itemId it else showId it

/-- catalog_key at src/app/main.py line 496: group_key or provider_key. -/
def catalogKeyOf (it : RawItem) : String :=
  if groupKeyOf it ≠ "" then groupKeyOf it else provider_key_from_ids it.providerIds

/-- One catalog value as built at src/app/main.py lines 498-505. -/
structure CatalogEntry where
  groupKey : String
  providerKey : String
  type : String
  title : String
  year : String
  thumb : String
  deriving Repr, DecidableEq

/-- The catalog entry a raw item would store, src/app/main.py lines
498-505. -/
def entryOf (it : RawItem) : CatalogEntry :=
  { groupKey := groupKeyOf it
    providerKey := provider_key_from_ids it.providerIds
    type := if itemType it = "movie" then "movie" else "show"
    title := if itemType it = "movie" then it.name else it.seriesName
    year := it.productionYear
    thumb := if it.thumb ≠ "" then it.thumb else it.seriesThumb }

abbrev Catalog := List (String × CatalogEntry)

/-- cache.catalog.setdefault at src/app/main.py lines 497-505, including
the eligibility and empty-key guards of the surrounding loop. -/
def catalogInsert (cat : Catalog) (it : RawItem) : Catalog :=
  if itemEligible it = false then cat
  else
    let k := catalogKeyOf it
    if k = "" then cat
    else if (cat.lookup k).isSome then cat
    else cat ++ [(k, entryOf it)]

/-- The catalog built by folding one refresh pass's raw items, in
processing order, into an initially empty catalog. -/
def buildCatalog (items : List RawItem) : Catalog :=
  items.foldl catalogInsert []

/-- The normalized event dict built at src/app/main.py lines 507-529,
restricted to the fields sync_events reads. -/
def eventOf (watchThreshold : ℚ) (it : RawItem) : Event :=
  { type := itemType it
    providerKey := provider_key_from_ids it.providerIds
    groupKey := groupKeyOf it
    title := it.name
    seriesName := it.seriesName
    completed := is_completed watchThreshold it.userData
    date := it.userData.lastPlayedTs }

/-- src/app/store.py lines 8-15, Cache: exactly the three declared fields,
last_refresh_ts, users and user_history. The class has no catalog field,
and nothing in src ever assigns one to the instance created at
src/app/main.py line 91, although main.py reads cache.catalog in many
places. -/
structure Cache where
  lastRefreshTs : ℚ
  users : List (String × String)
  userHistory : List (String × List Event)
  deriving Repr, DecidableEq

/-- src/app/store.py lines 17-20, Cache.is_stale. -/
def is_stale (c : Cache) (refreshMinutes now : ℚ) : Bool :=
  if c.lastRefreshTs ≤ 0 then true
  else decide (now - c.lastRefreshTs > refreshMinutes * 60)

/-- src/app/main.py lines 414-422, refresh_cache, as far as it can execute
against store.py's Cache: when not forced and not stale it returns without
touching anything (lines 417-418); otherwise it clears users (line 420)
and user_history (line 421) in place and then evaluates
cache.catalog.clear() (line 422), which raises AttributeError because the
Cache instance has no catalog attribute - so control never reaches the
jellyfin.get_users() call of line 425. The result is the cache as the
caller observes it afterwards, paired with whether AttributeError was
raised. -/
def refresh_cache (refreshMinutes now : ℚ) (force : Bool) (c : Cache) : Cache × Bool :=
  if force = false ∧ is_stale c refreshMinutes now = false then (c, false)
  else ({ c with users := [], userHistory := [] }, true)

/-- The valid-key set recomputed after a refresh, src/app/main.py lines
550-555: every non-empty providerKey and groupKey of a catalog value. The
Python set is modelled as a duplicate-free list queried by membership. -/
def validKeysOf (cat : Catalog) : List String :=
  cat.foldl
    (fun ks e =>
      let ks1 := if e.2.providerKey ≠ "" ∧ ¬ ks.contains e.2.providerKey then ks ++ [e.2.providerKey] else ks
      if e.2.groupKey ≠ "" ∧ ¬ ks1.contains e.2.groupKey then ks1 ++ [e.2.groupKey] else ks1)
    []

/-- src/app/trakt_client.py lines 42-48, TraktAccount. -/
structure TraktAccount where
  username : String
  accessToken : String
  refreshToken : String
  expiresAt : ℚ
  enabled : Bool
  deriving Repr, DecidableEq

/-- The persisted content of one account_settings row, src/app/db.py lines
27-31: the enabled flag and the last_synced cursor. -/
abbrev SettingsRow := Bool × ℚ

/-- src/app/db.py lines 55-65, SyncStore.ensure_account: INSERT with ON
CONFLICT(username) DO NOTHING, so an existing row is left untouched. -/
def ensure_account (rows : List (String × SettingsRow)) (username : String)
    (enabled : Bool) (last_synced : ℚ) : List (String × SettingsRow) :=
  if (rows.lookup username).isSome then rows
  else rows ++ [(username, (enabled, last_synced))]

/-- The TraktService state touched by device-flow enrollment: the in-memory
accounts and cursors, the per-title rule tables, and the persisted
account_settings rows. -/
structure TraktState where
  accounts : List (String × TraktAccount)
  lastSynced : List (String × ℚ)
  accountItems : AccountItems
  storeSettings : List (String × SettingsRow)
  deriving Repr, DecidableEq

/-- src/app/trakt_client.py lines 457-481, _add_account_from_tokens, with
the network parts passed in: the token payload fields and the
_profile_username outcome (none is a failed profile fetch; the returned
username is already stripped by _profile_username). none models the
(False, error) returns. The built account always carries enabled false
and is assigned into the accounts dict; last_synced uses setdefault; the
store row uses ensure_account with the account's (false) enabled flag and
the current cursor. -/
def add_account_from_tokens (st : TraktState) (access_token refresh_token : String)
    (expires_in : ℚ) (profile : Option String) (now : ℚ) : Option TraktState :=
  let at' := pyStrip access_token
  let rt' := pyStrip refresh_token
  if at' = "" ∨ rt' = "" ∨ expires_in = 0 then none
  else
    match profile with
    | none => none
    | some username =>
      if username = "" then none
      else
        let acc : TraktAccount :=
          { username := username, accessToken := at', refreshToken := rt'
            expiresAt := now + expires_in, enabled := false }
        let ls :=
          if (st.lastSynced.lookup username).isSome then st.lastSynced
          else st.lastSynced ++ [(username, 0)]
        some { st with
          accounts := upsert st.accounts username acc
          lastSynced := ls
          storeSettings := ensure_account st.storeSettings username false ((ls.lookup username).getD 0) }

/-! ### Decomposition of the per-event loop, used to reason about
sync_events (these mirror the branch structure of stepEvent). -/

/-- The record an event contributes to the movies batch of the per-event
loop, if any. -/
def movieRec (rules : Rules) (last : ℚ) (ev : Event) : Option Record :=
  if ev.date ≤ last ∨ ev.completed = false then none
  else
    match trakt_ids ev.providerKey with
    | none => none
    | some ids =>
      if itemAllowedRules rules ev.providerKey ev.groupKey = false then none
      else if pyLower ev.type = "movie" then some (ids, ev.date) else none

/-- The record an event contributes to the episodes batch, if any. -/
def episodeRec (rules : Rules) (last : ℚ) (ev : Event) : Option Record :=
  if ev.date ≤ last ∨ ev.completed = false then none
  else
    match trakt_ids ev.providerKey with
    | none => none
    | some ids =>
      if itemAllowedRules rules ev.providerKey ev.groupKey = false then none
      else if pyLower ev.type = "movie" then none
      else if pyLower ev.type = "episode" then some (ids, ev.date) else none

/-- The timestamp an event contributes to the running maximum of the
per-event loop, if any. -/
def sentTsOf (rules : Rules) (last : ℚ) (ev : Event) : Option ℚ :=
  if ev.date ≤ last ∨ ev.completed = false then none
  else
    match trakt_ids ev.providerKey with
    | none => none
    | some _ =>
      if itemAllowedRules rules ev.providerKey ev.groupKey = false then none
      else if pyLower ev.type = "movie" then some ev.date
      else if pyLower ev.type = "episode" then some ev.date else none

/-- The watched-at timestamps of all records in a loop state's two
batches: the timestamps of the sent events. -/
def sentDates (st : AccState) : List ℚ :=
  st.movies.map Prod.snd ++ st.episodes.map Prod.snd

/-- Concrete pre-state for the C5 witness: bob already enrolled, enabled,
with a cursor, one rule and a persisted row. -/
def c5StateExisting : TraktState :=
  { accounts := [("bob",
      { username := "bob", accessToken := "A1", refreshToken := "R1",
        expiresAt := 10, enabled := true })],
    lastSynced := [("bob", 7)],
    accountItems := [("bob", [("K", true)])],
    storeSettings := [("bob", (true, 7))] }

/-- Concrete empty pre-state for the C5 witness. -/
def c5StateEmpty : TraktState :=
  { accounts := [], lastSynced := [], accountItems := [], storeSettings := [] }

/-- A concrete raw episode of series S1 for the C7 witness. -/
def c7Episode1 : RawItem :=
  { type := "Episode", id := "ep1", seriesId := "S1", parentOrSeasonId := "sea1",
    providerIds := { tmdb := "77", imdb := "", tvdb := "" },
    name := "Pilot", seriesName := "The Show", productionYear := "2020",
    userData := { played := true, playedPercentage := some 100, lastPlayedTs := 10 },
    thumb := "t1", seriesThumb := "ts1" }

/-- A second concrete raw episode of the same series for the C7 witness. -/
def c7Episode2 : RawItem :=
  { type := "Episode", id := "ep2", seriesId := "S1", parentOrSeasonId := "sea1",
    providerIds := { tmdb := "78", imdb := "", tvdb := "" },
    name := "Part Two", seriesName := "The Show", productionYear := "2020",
    userData := { played := true, playedPercentage := some 100, lastPlayedTs := 11 },
    thumb := "t2", seriesThumb := "ts2" }

/-- A concrete movie event for the C9 witness. -/
def c9EvA : Event :=
  { type := "movie", providerKey := "tmdb:1", groupKey := "m1", title := "A",
    seriesName := "", completed := true, date := 5 }

/-- A concrete episode event for the C9 witness. -/
def c9EvB : Event :=
  { type := "episode", providerKey := "tmdb:2", groupKey := "S1", title := "B",
    seriesName := "S", completed := true, date := 7 }

/-! ### Association-list lemmas -/

theorem lookup_upsert_self {α : Type} (l : List (String × α)) (k : String) (v : α) :
    (upsert l k v).lookup k = some v := by
  induction l with
  | nil => simp [upsert]
  | cons h t ih =>
    obtain ⟨k', v'⟩ := h
    by_cases hk : k' = k
    · simp [upsert, hk]
    · have hb : (k == k') = false := beq_eq_false_iff_ne.mpr (Ne.symm hk)
      simp [upsert, hk, List.lookup_cons, hb, ih]

theorem lookup_upsert_ne {α : Type} (l : List (String × α)) (k k' : String) (v : α)
    (h : k' ≠ k) : (upsert l k v).lookup k' = l.lookup k' := by
  have hb : (k' == k) = false := beq_eq_false_iff_ne.mpr h
  induction l with
  | nil => simp [upsert, List.lookup_cons, hb]
  | cons hd t ih =>
    obtain ⟨k₀, v₀⟩ := hd
    by_cases hk : k₀ = k
    · subst hk
      simp [upsert, List.lookup_cons, hb]
    · simp [upsert, hk, List.lookup_cons, ih]

theorem lookup_map_value {α β : Type} (f : α → β) (l : List (String × α)) (k : String) :
    (l.map (fun p => (p.1, f p.2))).lookup k = (l.lookup k).map f := by
  induction l with
  | nil => rfl
  | cons h t ih =>
    obtain ⟨k', v'⟩ := h
    by_cases hk : k = k'
    · simp [List.lookup_cons, hk]
    · have hb : (k == k') = false := beq_eq_false_iff_ne.mpr hk
      simp [List.lookup_cons, hb, ih]

theorem lookup_filter_key_none (l : Rules) (p : String × Bool → Bool) (k : String)
    (hp : ∀ b, p (k, b) = false) : (l.filter p).lookup k = none := by
  induction l with
  | nil => rfl
  | cons h t ih =>
    obtain ⟨k', b'⟩ := h
    by_cases hkeep : p (k', b') = true
    · rw [List.filter_cons_of_pos hkeep]
      by_cases hk : k = k'
      · subst hk
        exact absurd hkeep (by simp [hp b'])
      · have hb : (k == k') = false := beq_eq_false_iff_ne.mpr hk
        simp [List.lookup_cons, hb, ih]
    · rw [List.filter_cons_of_neg hkeep]
      exact ih

/-! ### C6: completion flag of normalized events -/

/-- C6: every raw item normalized during a refresh produces a WatchEvent
whose completed flag is true iff the item's played flag is set or its
percentWatched (the played percentage divided by 100, defaulting to 0 on
missing or malformed input) is at least WATCH_THRESHOLD. -/
theorem c6_completed_iff (watchThreshold : ℚ) (it : RawItem) :
    (eventOf watchThreshold it).completed = true ↔
      it.userData.played = true ∨
        watchThreshold ≤ it.userData.playedPercentage.getD 0 / 100 := by
  simp [eventOf, is_completed, played_pct, Bool.or_eq_true, decide_eq_true_iff]

/-! ### C4: the 401 retry loop of _post_history -/

/-- C4 (the code evaluated at the failing input): with a non-empty payload,
a valid-looking token, POST outcomes 401, 401, 200 and refresh-token
exchanges that succeed, _post_history issues a second refresh exchange and
a third POST, and returns success. The claim instead requires the call to
fail terminally after the second 401, with exactly one refresh exchange and
exactly one retry of the request. -/
theorem c4_second_401_not_terminal :
    post_history false false
        [PostResp.unauthorized, PostResp.unauthorized, PostResp.ok] [true, true]
      = (true, 3, 2) := by decide

/-! ### C10: events of unknown type are silently dropped -/

/-- C10: an event that passes the cursor, completed, provider-id and rule
checks but whose lowercased type is neither movie nor episode leaves the
per-account loop state exactly unchanged: it enters neither batch, bumps
neither skip counter, and does not touch the running maximum timestamp. -/
theorem c10_unknown_type_dropped (rules : Rules) (last : ℚ) (st : AccState) (ev : Event)
    (hts : ¬ ev.date ≤ last) (hc : ev.completed = true)
    (hids : (trakt_ids ev.providerKey).isSome = true)
    (hallow : itemAllowedRules rules ev.providerKey ev.groupKey = true)
    (hm : pyLower ev.type ≠ "movie") (he : pyLower ev.type ≠ "episode") :
    stepEvent rules last st ev = st := by
  obtain ⟨ids, hid⟩ := Option.isSome_iff_exists.mp hids
  simp [stepEvent, hts, hc, hid, hallow, hm, he]

/-- Witness for C10 at a concrete input: a completed Audio event dated
after the cursor, with a mappable provider id and an explicit allow rule,
leaves the initial loop state unchanged. -/
theorem c10_unknown_type_dropped_witness :
    (¬ ({ type := "Audio", providerKey := "tmdb:1", groupKey := "g", title := "t",
          seriesName := "", completed := true, date := 5 } : Event).date ≤ (0 : ℚ))
    ∧ stepEvent [("tmdb:1", true)] 0 initAccState
        { type := "Audio", providerKey := "tmdb:1", groupKey := "g", title := "t",
          seriesName := "", completed := true, date := 5 } = initAccState :=
  ⟨by decide,
    c10_unknown_type_dropped [("tmdb:1", true)] 0 initAccState
      { type := "Audio", providerKey := "tmdb:1", groupKey := "g", title := "t",
        seriesName := "", completed := true, date := 5 }
      (by decide) (by decide) (by decide) (by decide) (by decide) (by decide)⟩

/-! ### C8: rule pruning against the valid-key set -/

/-- C8 counterexample: when the refreshed catalog is empty its valid-key
set is empty, and prune_rules with an empty key set is a no-op, so a rule
stored under key K survives even though K is not a valid key. The claim
requires every surviving rule key to belong to the valid-key set in this
case too. -/
theorem c8_empty_catalog_skips_prune :
    validKeysOf [] = []
    ∧ prune_rules [("alice", [("K", true)])] (validKeysOf []) = [("alice", [("K", true)])]
    ∧ ¬ "K" ∈ validKeysOf [] := by decide

/-- C8 amended: when the valid-key set is non-empty, every rule key still
stored for any account after prune_rules belongs to it, and a lookup for a
key outside it finds no rule for any account; when the valid-key set is
empty, prune_rules leaves every rule in place. -/
theorem c8_prune_rules_nonempty (account_items : AccountItems) (valid_keys : List String)
    (hne : valid_keys ≠ []) :
    (∀ u rules, (u, rules) ∈ prune_rules account_items valid_keys →
        ∀ k b, (k, b) ∈ rules → k ∈ valid_keys)
    ∧ (∀ u k, ¬ k ∈ valid_keys →
        (((prune_rules account_items valid_keys).lookup u).getD []).lookup k = none) := by
  constructor
  · intro u rules hmem k b hkb
    unfold prune_rules at hmem
    rw [if_neg hne] at hmem
    obtain ⟨⟨u₀, rules₀⟩, _, heq⟩ := List.mem_map.mp hmem
    have hr : rules = rules₀.filter (fun kv => valid_keys.contains kv.1) := by
      have := congrArg Prod.snd heq
      simpa using this.symm
    rw [hr] at hkb
    have := (List.mem_filter.mp hkb).2
    simpa [List.elem_iff] using this
  · intro u k hk
    unfold prune_rules
    rw [if_neg hne]
    have hmap := lookup_map_value (fun rules => rules.filter (fun kv => valid_keys.contains kv.1))
      account_items u
    rw [hmap]
    cases hval : account_items.lookup u with
    | none => simp [hval]
    | some rules =>
      simp only [Option.map_some', Option.getD_some]
      exact lookup_filter_key_none rules _ k (fun b => by
        simpa [List.elem_iff] using hk)

/-- Witness for C8 at a concrete input: pruning against the singleton
valid-key set containing A removes the rule keyed K and keeps only keys in
the set. -/
theorem c8_prune_rules_nonempty_witness :
    (["A"] : List String) ≠ []
    ∧ ((∀ u rules, (u, rules) ∈ prune_rules [("alice", [("K", true), ("A", false)])] ["A"] →
          ∀ k b, (k, b) ∈ rules → k ∈ (["A"] : List String))
      ∧ (∀ u k, ¬ k ∈ (["A"] : List String) →
          (((prune_rules [("alice", [("K", true), ("A", false)])] ["A"]).lookup u).getD []).lookup k = none)) :=
  ⟨by decide, c8_prune_rules_nonempty [("alice", [("K", true), ("A", false)])] ["A"] (by decide)⟩

/-! ### C1: default-deny rule evaluation -/

/-- The rule chain of item_allowed characterised through ruleFor: allowed
iff the providerKey carries an explicit true rule, or carries no rule at
all while the groupKey carries an explicit true rule. -/
theorem itemAllowedRules_iff (rules : Rules) (pk gk : String) :
    itemAllowedRules rules pk gk = true ↔
      (ruleFor rules pk = some true ∨
        (ruleFor rules pk = none ∧ ruleFor rules gk = some true)) := by
  by_cases hpk : pk = ""
  · by_cases hgk : gk = ""
    · simp [itemAllowedRules, ruleFor, hpk, hgk]
    · cases hl : rules.lookup gk <;>
        simp [itemAllowedRules, ruleFor, hpk, hgk, hl]
  · cases hl : rules.lookup pk
    · by_cases hgk : gk = ""
      · simp [itemAllowedRules, ruleFor, hpk, hgk, hl]
      · cases hg : rules.lookup gk <;>
          simp [itemAllowedRules, ruleFor, hpk, hgk, hl, hg]
    · simp [itemAllowedRules, ruleFor, hpk, hl]

/-- C1: the per-account rule evaluation used by sync_events allows an
event iff its providerKey has an explicit true rule, or has no rule at all
while its groupKey has an explicit true rule, and denies otherwise; and an
event with no rule entry under either key is appended to neither the
movies nor the episodes batch by the per-event loop body (which runs
exactly for enabled accounts). -/
theorem c1_default_deny (rules : Rules) (last : ℚ) (st : AccState) (ev : Event)
    (hpk : ruleFor rules ev.providerKey = none)
    (hgk : ruleFor rules ev.groupKey = none) :
    (∀ (rules' : Rules) (pk gk : String),
        itemAllowedRules rules' pk gk = true ↔
          (ruleFor rules' pk = some true ∨
            (ruleFor rules' pk = none ∧ ruleFor rules' gk = some true)))
    ∧ (stepEvent rules last st ev).movies = st.movies
    ∧ (stepEvent rules last st ev).episodes = st.episodes := by
  have hallow : itemAllowedRules rules ev.providerKey ev.groupKey = false := by
    rw [Bool.eq_false_iff]
    intro htrue
    rcases (itemAllowedRules_iff rules ev.providerKey ev.groupKey).mp htrue with h | ⟨_, h⟩
    · rw [hpk] at h
      exact Option.noConfusion h
    · rw [hgk] at h
      exact Option.noConfusion h
  refine ⟨itemAllowedRules_iff, ?_, ?_⟩ <;>
  · unfold stepEvent
    split
    · rfl
    · cases htid : trakt_ids ev.providerKey <;> simp [hallow]

/-- Witness for C1 at a concrete input: with the rule table holding only
an unrelated key, a movie event keyed tmdb:9 with groupKey g has no rule
entry under either key and contributes to neither batch. -/
theorem c1_default_deny_witness :
    ruleFor [("x", true)] "tmdb:9" = none
    ∧ ruleFor [("x", true)] "g" = none
    ∧ ((∀ (rules' : Rules) (pk gk : String),
          itemAllowedRules rules' pk gk = true ↔
            (ruleFor rules' pk = some true ∨
              (ruleFor rules' pk = none ∧ ruleFor rules' gk = some true)))
      ∧ (stepEvent [("x", true)] 0 initAccState
          { type := "movie", providerKey := "tmdb:9", groupKey := "g", title := "t",
            seriesName := "", completed := true, date := 5 }).movies = initAccState.movies
      ∧ (stepEvent [("x", true)] 0 initAccState
          { type := "movie", providerKey := "tmdb:9", groupKey := "g", title := "t",
            seriesName := "", completed := true, date := 5 }).episodes = initAccState.episodes) :=
  ⟨by decide, by decide,
    c1_default_deny [("x", true)] 0 initAccState
      { type := "movie", providerKey := "tmdb:9", groupKey := "g", title := "t",
        seriesName := "", completed := true, date := 5 }
      (by decide) (by decide)⟩

/-! ### C5: device-flow re-enrollment -/

/-- C5 counterexample: re-enrolling the already-known username alice, whose
in-memory account is enabled, leaves the accounts map holding alice with
enabled false: the claim instead requires the existing enabled flag to be
left unchanged. -/
theorem c5_reenroll_resets_enabled :
    ((add_account_from_tokens
        { accounts := [("alice",
            { username := "alice", accessToken := "oldA", refreshToken := "oldR",
              expiresAt := 1000, enabled := true })],
          lastSynced := [("alice", 50)],
          accountItems := [("alice", [("K", true)])],
          storeSettings := [("alice", (true, 50))] }
        "newA" "newR" 3600 (some "alice") 2000).bind
      (fun st => (st.accounts.lookup "alice").map TraktAccount.enabled)) = some false := by
  decide

/-- C5 amended: completing enrollment for a username already present in
the accounts map replaces that account in place with one carrying the new
access token, refresh token and expiry and enabled set to false (the
persisted store row, and with it the durable enabled flag, is left
untouched by the conflict-do-nothing insert, as are the per-title rule
tables, the cursor map and every other account); a username not previously
present is appended as a new account with enabled false, a zero cursor and
a fresh disabled store row. -/
theorem c5_enroll_amended (st stN : TraktState) (acTok rfTok uname unameN : String)
    (ein now : ℚ)
    (hat : pyStrip acTok ≠ "") (hrt : pyStrip rfTok ≠ "") (hein : ein ≠ 0)
    (hu : uname ≠ "")
    (hls : (st.lastSynced.lookup uname).isSome = true)
    (hrow : (st.storeSettings.lookup uname).isSome = true)
    (huN : unameN ≠ "")
    (hlsN : stN.lastSynced.lookup unameN = none)
    (hrowN : stN.storeSettings.lookup unameN = none) :
    (∃ st', add_account_from_tokens st acTok rfTok ein (some uname) now = some st'
      ∧ st'.accounts.lookup uname = some
          { username := uname, accessToken := pyStrip acTok, refreshToken := pyStrip rfTok,
            expiresAt := now + ein, enabled := false }
      ∧ (∀ u, u ≠ uname → st'.accounts.lookup u = st.accounts.lookup u)
      ∧ st'.accountItems = st.accountItems
      ∧ st'.lastSynced = st.lastSynced
      ∧ st'.storeSettings = st.storeSettings)
    ∧ (∃ st', add_account_from_tokens stN acTok rfTok ein (some unameN) now = some st'
      ∧ st'.accounts.lookup unameN = some
          { username := unameN, accessToken := pyStrip acTok, refreshToken := pyStrip rfTok,
            expiresAt := now + ein, enabled := false }
      ∧ st'.accountItems = stN.accountItems
      ∧ st'.lastSynced = stN.lastSynced ++ [(unameN, 0)]
      ∧ st'.storeSettings = stN.storeSettings ++ [(unameN, (false, 0))]) := by
  have hguard : ¬ (pyStrip acTok = "" ∨ pyStrip rfTok = "" ∨ ein = 0) := by
    simp [hat, hrt, hein]
  constructor
  · have heq : add_account_from_tokens st acTok rfTok ein (some uname) now =
        some { accounts := upsert st.accounts uname
                 { username := uname, accessToken := pyStrip acTok,
                   refreshToken := pyStrip rfTok, expiresAt := now + ein, enabled := false },
               lastSynced := st.lastSynced,
               accountItems := st.accountItems,
               storeSettings := st.storeSettings } := by
      simp only [add_account_from_tokens]
      rw [if_neg hguard, if_neg hu]
      simp [hls, ensure_account, hrow]
    exact ⟨_, heq, lookup_upsert_self _ _ _,
      fun u hu' => lookup_upsert_ne _ _ _ _ hu', rfl, rfl, rfl⟩
  · have heq : add_account_from_tokens stN acTok rfTok ein (some unameN) now =
        some { accounts := upsert stN.accounts unameN
                 { username := unameN, accessToken := pyStrip acTok,
                   refreshToken := pyStrip rfTok, expiresAt := now + ein, enabled := false },
               lastSynced := stN.lastSynced ++ [(unameN, 0)],
               accountItems := stN.accountItems,
               storeSettings := stN.storeSettings ++ [(unameN, (false, 0))] } := by
      simp only [add_account_from_tokens]
      rw [if_neg hguard, if_neg huN]
      simp only [hlsN, Option.isSome_none, Bool.false_eq_true, if_false]
      simp only [ensure_account, hrowN, Option.isSome_none, Bool.false_eq_true, if_false]
      rw [List.lookup_append, hlsN]
      simp [List.lookup_cons]
    exact ⟨_, heq, lookup_upsert_self _ _ _, rfl, rfl, rfl⟩

/-- Witness for C5 at concrete inputs: re-enrolling bob (already present,
enabled, with a store row) and enrolling carol (absent everywhere). -/
theorem c5_enroll_amended_witness :
    pyStrip "A2" ≠ "" ∧ (3600 : ℚ) ≠ 0
    ∧ ((∃ st', add_account_from_tokens c5StateExisting "A2" "R2" 3600 (some "bob") 100 = some st'
        ∧ st'.accounts.lookup "bob" = some
            { username := "bob", accessToken := pyStrip "A2", refreshToken := pyStrip "R2",
              expiresAt := (100 : ℚ) + 3600, enabled := false }
        ∧ (∀ u, u ≠ "bob" → st'.accounts.lookup u = c5StateExisting.accounts.lookup u)
        ∧ st'.accountItems = c5StateExisting.accountItems
        ∧ st'.lastSynced = c5StateExisting.lastSynced
        ∧ st'.storeSettings = c5StateExisting.storeSettings)
      ∧ (∃ st', add_account_from_tokens c5StateEmpty "A2" "R2" 3600 (some "carol") 100 = some st'
        ∧ st'.accounts.lookup "carol" = some
            { username := "carol", accessToken := pyStrip "A2", refreshToken := pyStrip "R2",
              expiresAt := (100 : ℚ) + 3600, enabled := false }
        ∧ st'.accountItems = c5StateEmpty.accountItems
        ∧ st'.lastSynced = c5StateEmpty.lastSynced ++ [("carol", 0)]
        ∧ st'.storeSettings = c5StateEmpty.storeSettings ++ [("carol", (false, 0))])) :=
  ⟨by decide, by decide,
    c5_enroll_amended c5StateExisting c5StateEmpty "A2" "R2" "bob" "carol" 3600 100
      (by decide) (by decide) (by decide) (by decide) (by decide) (by decide)
      (by decide) (by decide) (by decide)⟩

/-! ### C3: refresh_cache cannot complete any refresh -/

/-- C3 (the code evaluated at the failing input): an unforced refresh of a
fresh cache is a no-op, but any refresh that passes the staleness gate
(here a forced one on a non-empty snapshot) clears users and user_history
in place and then raises AttributeError at cache.catalog.clear(), before
the users listing is ever attempted - store.py's Cache has no catalog
attribute and none is ever assigned. The previous snapshot is therefore
destroyed, not preserved, and no snapshot is ever published. -/
theorem c3_refresh_attribute_error :
    refresh_cache 30 110 false
        { lastRefreshTs := 100, users := [("u1", "Alice")], userHistory := [("u1", [])] } =
      ({ lastRefreshTs := 100, users := [("u1", "Alice")], userHistory := [("u1", [])] }, false)
    ∧ refresh_cache 30 200 true
        { lastRefreshTs := 100, users := [("u1", "Alice")], userHistory := [("u1", [])] } =
      ({ lastRefreshTs := 100, users := [], userHistory := [] }, true)
    ∧ ([("u1", "Alice")] : List (String × String)) ≠ [] := by
  have hfresh : is_stale
      { lastRefreshTs := 100, users := [("u1", "Alice")], userHistory := [("u1", [])] } 30 110
      = false := by
    simp only [is_stale]
    norm_num
  refine ⟨?_, by rfl, by decide⟩
  simp [refresh_cache, hfresh]

/-! ### C7: first-writer-wins catalog insertion -/

/-- One catalogInsert step, seen through a lookup at a fixed non-empty
key: the stored entry is the previous one if present, else the entry of
this item when it is eligible and maps to that key. -/
theorem lookup_catalogInsert (cat : Catalog) (it : RawItem) (k : String) (hk : k ≠ "") :
    (catalogInsert cat it).lookup k =
      (cat.lookup k).or
        (if itemEligible it && (catalogKeyOf it == k) then some (entryOf it) else none) := by
  unfold catalogInsert
  by_cases hel : itemEligible it = false
  · simp [hel]
  · have hel' : itemEligible it = true := by
      cases h : itemEligible it
      · exact absurd h hel
      · rfl
    rw [if_neg hel]
    by_cases hkey : catalogKeyOf it = ""
    · have hb : (catalogKeyOf it == k) = false := by
        rw [hkey]
        exact beq_eq_false_iff_ne.mpr (Ne.symm hk)
      simp [hkey, hel', hb, Ne.symm hk]
    · rw [if_neg hkey]
      by_cases hsome : (cat.lookup (catalogKeyOf it)).isSome = true
      · rw [if_pos hsome]
        by_cases hkk : catalogKeyOf it = k
        · rw [hkk] at hsome
          rw [Option.or_of_isSome hsome]
        · have hb : (catalogKeyOf it == k) = false := beq_eq_false_iff_ne.mpr hkk
          simp [hel', hb]
      · rw [if_neg hsome]
        rw [List.lookup_append]
        by_cases hkk : catalogKeyOf it = k
        · have hb : (k == catalogKeyOf it) = true := beq_iff_eq.mpr hkk.symm
          simp [hel', hkk, List.lookup_cons, hb]
        · have hb : (catalogKeyOf it == k) = false := beq_eq_false_iff_ne.mpr hkk
          have hb2 : (k == catalogKeyOf it) = false := beq_eq_false_iff_ne.mpr (Ne.symm hkk)
          simp [hel', hb, hb2, List.lookup_cons]

/-- Folding catalogInsert over a list of raw items, seen through a lookup
at a fixed non-empty key: the result is the previously stored entry if
any, else the entry of the first eligible item that maps to the key. -/
theorem lookup_foldl_catalogInsert (items : List RawItem) (cat : Catalog) (k : String)
    (hk : k ≠ "") :
    (items.foldl catalogInsert cat).lookup k =
      (cat.lookup k).or
        ((items.find? (fun it => itemEligible it && (catalogKeyOf it == k))).map entryOf) := by
  induction items generalizing cat with
  | nil => simp
  | cons it rest ih =>
    rw [List.foldl_cons, ih (catalogInsert cat it), lookup_catalogInsert cat it k hk,
      Option.or_assoc]
    by_cases hp : (itemEligible it && (catalogKeyOf it == k)) = true
    · simp [List.find?_cons, hp, Option.or]
    · have hp' : (itemEligible it && (catalogKeyOf it == k)) = false := by
        cases h : itemEligible it && (catalogKeyOf it == k)
        · rfl
        · exact absurd h hp
      simp [List.find?_cons, hp']

/-- C7: within one refresh pass catalog insertion is first-writer-wins:
the entry stored under any non-empty catalog key is the entry of the first
eligible raw item mapping to that key, so later items mapping to the same
key never alter it; in particular two episodes of the same series produce
exactly one catalog entry, of type show, carrying the first episode's
entry. -/
theorem c7_first_writer_wins (items : List RawItem) (k : String) (hk : k ≠ "")
    (e1 e2 : RawItem) (S : String) (hS : S ≠ "")
    (h1t : itemType e1 = "episode") (h2t : itemType e2 = "episode")
    (h1i : itemId e1 ≠ "") (h2i : itemId e2 ≠ "")
    (h1s : showId e1 = S) (h2s : showId e2 = S) :
    (buildCatalog items).lookup k =
      (items.find? (fun it => itemEligible it && (catalogKeyOf it == k))).map entryOf
    ∧ buildCatalog [e1, e2] = [(S, entryOf e1)]
    ∧ (entryOf e1).type = "show" := by
  have he1 : itemEligible e1 = true := by simp [itemEligible, h1t, h1i]
  have he2 : itemEligible e2 = true := by simp [itemEligible, h2t, h2i]
  have hg1 : groupKeyOf e1 = S := by simp [groupKeyOf, h1t, h1s]
  have hg2 : groupKeyOf e2 = S := by simp [groupKeyOf, h2t, h2s]
  have hk1 : catalogKeyOf e1 = S := by simp [catalogKeyOf, hg1, hS]
  have hk2 : catalogKeyOf e2 = S := by simp [catalogKeyOf, hg2, hS]
  refine ⟨?_, ?_, ?_⟩
  · have := lookup_foldl_catalogInsert items [] k hk
    simpa [buildCatalog] using this
  · have hb : (S == S) = true := beq_iff_eq.mpr rfl
    simp [buildCatalog, catalogInsert, he1, he2, hk1, hk2, hS, List.lookup_cons, hb]
  · simp [entryOf, h1t]

/-- Witness for C7 at concrete inputs: two raw Episode items of series S1
insert a single show entry keyed S1 holding the first episode's data. -/
theorem c7_first_writer_wins_witness :
    ("S1" : String) ≠ ""
    ∧ ((buildCatalog []).lookup "S1" =
        (([] : List RawItem).find? (fun it => itemEligible it && (catalogKeyOf it == "S1"))).map entryOf
      ∧ buildCatalog [c7Episode1, c7Episode2] = [("S1", entryOf c7Episode1)]
      ∧ (entryOf c7Episode1).type = "show") :=
  ⟨by decide,
    c7_first_writer_wins [] "S1" (by decide) c7Episode1 c7Episode2 "S1"
      (by decide) (by decide) (by decide) (by decide) (by decide) (by decide) (by decide)⟩

/-! ### Characterization of the per-event fold -/

theorem stepEvent_movies (rules : Rules) (last : ℚ) (st : AccState) (ev : Event) :
    (stepEvent rules last st ev).movies = st.movies ++ (movieRec rules last ev).toList := by
  unfold stepEvent movieRec
  split
  · simp
  · cases htid : trakt_ids ev.providerKey
    · simp
    · by_cases ha : itemAllowedRules rules ev.providerKey ev.groupKey = false
      · simp [ha]
      · by_cases hm : pyLower ev.type = "movie"
        · simp [ha, hm]
        · by_cases he : pyLower ev.type = "episode" <;> simp [ha, hm, he]

theorem stepEvent_episodes (rules : Rules) (last : ℚ) (st : AccState) (ev : Event) :
    (stepEvent rules last st ev).episodes = st.episodes ++ (episodeRec rules last ev).toList := by
  unfold stepEvent episodeRec
  split
  · simp
  · cases htid : trakt_ids ev.providerKey
    · simp
    · by_cases ha : itemAllowedRules rules ev.providerKey ev.groupKey = false
      · simp [ha]
      · by_cases hm : pyLower ev.type = "movie"
        · simp [ha, hm]
        · by_cases he : pyLower ev.type = "episode" <;> simp [ha, hm, he]

theorem stepEvent_maxTsSent (rules : Rules) (last : ℚ) (st : AccState) (ev : Event) :
    (stepEvent rules last st ev).maxTsSent =
      ((sentTsOf rules last ev).toList).foldl max st.maxTsSent := by
  unfold stepEvent sentTsOf
  split
  · simp
  · cases htid : trakt_ids ev.providerKey
    · simp
    · by_cases ha : itemAllowedRules rules ev.providerKey ev.groupKey = false
      · simp [ha]
      · by_cases hm : pyLower ev.type = "movie"
        · simp [ha, hm]
        · by_cases he : pyLower ev.type = "episode" <;> simp [ha, hm, he]

theorem foldl_stepEvent_movies (rules : Rules) (last : ℚ) (l : List Event) (st : AccState) :
    (l.foldl (stepEvent rules last) st).movies = st.movies ++ l.filterMap (movieRec rules last) := by
  induction l generalizing st with
  | nil => simp
  | cons ev t ih =>
    rw [List.foldl_cons, ih, stepEvent_movies, List.filterMap_cons]
    cases movieRec rules last ev <;> simp

theorem foldl_stepEvent_episodes (rules : Rules) (last : ℚ) (l : List Event) (st : AccState) :
    (l.foldl (stepEvent rules last) st).episodes = st.episodes ++ l.filterMap (episodeRec rules last) := by
  induction l generalizing st with
  | nil => simp
  | cons ev t ih =>
    rw [List.foldl_cons, ih, stepEvent_episodes, List.filterMap_cons]
    cases episodeRec rules last ev <;> simp

theorem foldl_stepEvent_maxTsSent (rules : Rules) (last : ℚ) (l : List Event) (st : AccState) :
    (l.foldl (stepEvent rules last) st).maxTsSent =
      (l.filterMap (sentTsOf rules last)).foldl max st.maxTsSent := by
  induction l generalizing st with
  | nil => simp
  | cons ev t ih =>
    rw [List.foldl_cons, ih, stepEvent_maxTsSent, List.filterMap_cons]
    cases sentTsOf rules last ev <;> simp

theorem sentTsOf_gt_last (rules : Rules) (last : ℚ) (ev : Event) (t : ℚ)
    (h : sentTsOf rules last ev = some t) : last < t := by
  unfold sentTsOf at h
  by_cases hc : ev.date ≤ last ∨ ev.completed = false
  · rw [if_pos hc] at h
    exact Option.noConfusion h
  · rw [if_neg hc] at h
    have hlt : last < ev.date := lt_of_not_le (fun hle => hc (Or.inl hle))
    cases htid : trakt_ids ev.providerKey <;> rw [htid] at h
    · exact Option.noConfusion h
    · by_cases ha : itemAllowedRules rules ev.providerKey ev.groupKey = false
      · rw [if_pos ha] at h
        exact Option.noConfusion h
      · rw [if_neg ha] at h
        by_cases hm : pyLower ev.type = "movie"
        · rw [if_pos hm, Option.some.injEq] at h
          exact h ▸ hlt
        · rw [if_neg hm] at h
          by_cases he : pyLower ev.type = "episode"
          · rw [if_pos he, Option.some.injEq] at h
            exact h ▸ hlt
          · rw [if_neg he] at h
            exact Option.noConfusion h

theorem movieRec_some_episodeRec_none (rules : Rules) (last : ℚ) (ev : Event) (r : Record)
    (h : movieRec rules last ev = some r) : episodeRec rules last ev = none := by
  unfold movieRec at h
  unfold episodeRec
  by_cases hc : ev.date ≤ last ∨ ev.completed = false
  · rw [if_pos hc] at h
    exact Option.noConfusion h
  · rw [if_neg hc] at h
    rw [if_neg hc]
    cases htid : trakt_ids ev.providerKey
    · rfl
    · rw [htid] at h
      dsimp only at h ⊢
      by_cases ha : itemAllowedRules rules ev.providerKey ev.groupKey = false
      · rw [if_pos ha]
      · rw [if_neg ha] at h ⊢
        by_cases hm : pyLower ev.type = "movie"
        · rw [if_pos hm]
        · rw [if_neg hm] at h
          exact Option.noConfusion h

theorem sentTsOf_eq_or (rules : Rules) (last : ℚ) (ev : Event) :
    sentTsOf rules last ev =
      ((movieRec rules last ev).map Prod.snd).or ((episodeRec rules last ev).map Prod.snd) := by
  unfold sentTsOf movieRec episodeRec
  by_cases hc : ev.date ≤ last ∨ ev.completed = false
  · simp [hc]
  · rw [if_neg hc, if_neg hc, if_neg hc]
    cases htid : trakt_ids ev.providerKey
    · rfl
    · by_cases ha : itemAllowedRules rules ev.providerKey ev.groupKey = false
      · simp [ha]
      · by_cases hm : pyLower ev.type = "movie"
        · simp [ha, hm, Option.or]
        · by_cases he : pyLower ev.type = "episode" <;> simp [ha, hm, he, Option.or]

theorem sent_perm (rules : Rules) (last : ℚ) (l : List Event) :
    (l.filterMap (sentTsOf rules last)).Perm
      ((l.filterMap (movieRec rules last)).map Prod.snd
        ++ (l.filterMap (episodeRec rules last)).map Prod.snd) := by
  induction l with
  | nil => simp
  | cons ev t ih =>
    rw [List.filterMap_cons, List.filterMap_cons, List.filterMap_cons, sentTsOf_eq_or]
    cases hm : movieRec rules last ev
    · cases he : episodeRec rules last ev
      · simpa using ih
      · simp only [Option.map_none', Option.none_or, Option.map_some']
        simp only [List.map_cons]
        exact (ih.cons _).trans List.perm_middle.symm
    · have hen : episodeRec rules last ev = none :=
        movieRec_some_episodeRec_none rules last ev _ hm
      rw [hen]
      simp only [Option.map_some', Option.map_none', Option.or_none, Option.or, List.map_cons]
      exact (ih.cons _).trans (by rw [List.cons_append])

/-! ### Maximum-fold lemmas -/

theorem le_foldl_max (l : List ℚ) (a : ℚ) : a ≤ l.foldl max a := by
  induction l generalizing a with
  | nil => exact le_refl a
  | cons h t ih => exact le_trans (le_max_left a h) (ih (max a h))

theorem mem_le_foldl_max (l : List ℚ) (a t : ℚ) : t ∈ l → t ≤ l.foldl max a := by
  induction l generalizing a with
  | nil => intro ht; cases ht
  | cons h tl ih =>
    intro ht
    rw [List.foldl_cons]
    rcases List.mem_cons.mp ht with rfl | hmem
    · exact le_trans (le_max_right a t) (le_foldl_max tl (max a t))
    · exact ih (max a h) hmem

theorem foldl_max_mem (l : List ℚ) (a : ℚ) : l.foldl max a = a ∨ l.foldl max a ∈ l := by
  induction l generalizing a with
  | nil => exact Or.inl rfl
  | cons h t ih =>
    rw [List.foldl_cons]
    rcases ih (max a h) with heq | hmem
    · rcases max_choice a h with hc | hc
      · exact Or.inl (heq.trans hc)
      · exact Or.inr (by rw [heq, hc]; exact List.mem_cons_self h t)
    · exact Or.inr (List.mem_cons_of_mem h hmem)

theorem perm_foldl_max {l₁ l₂ : List ℚ} (p : l₁.Perm l₂) : ∀ a, l₁.foldl max a = l₂.foldl max a := by
  induction p with
  | nil => intro a; rfl
  | cons x _ ih => intro a; rw [List.foldl_cons, List.foldl_cons, ih]
  | swap x y l =>
    intro a
    rw [List.foldl_cons, List.foldl_cons, List.foldl_cons, List.foldl_cons, sup_right_comm]
  | trans _ _ ih1 ih2 => intro a; rw [ih1, ih2]

/-! ### The per-account sync outcome -/

theorem syncAccount_movies (rules : Rules) (last : ℚ) (events : List Event) (postOk : Bool) :
    (syncAccount rules last events postOk).2.1.movies =
      (sortEvents events).filterMap (movieRec rules last) := by
  unfold syncAccount
  simpa [initAccState] using foldl_stepEvent_movies rules last (sortEvents events) initAccState

theorem syncAccount_episodes (rules : Rules) (last : ℚ) (events : List Event) (postOk : Bool) :
    (syncAccount rules last events postOk).2.1.episodes =
      (sortEvents events).filterMap (episodeRec rules last) := by
  unfold syncAccount
  simpa [initAccState] using foldl_stepEvent_episodes rules last (sortEvents events) initAccState

theorem syncAccount_maxTsSent (rules : Rules) (last : ℚ) (events : List Event) (postOk : Bool) :
    (syncAccount rules last events postOk).2.1.maxTsSent =
      ((sortEvents events).filterMap (sentTsOf rules last)).foldl max 0 := by
  unfold syncAccount
  simpa [initAccState] using foldl_stepEvent_maxTsSent rules last (sortEvents events) initAccState

theorem syncAccount_maxTsSent_cases (rules : Rules) (last : ℚ) (events : List Event) (postOk : Bool) :
    (syncAccount rules last events postOk).2.1.maxTsSent = 0
    ∨ ((syncAccount rules last events postOk).2.1.maxTsSent ∈
        (sortEvents events).filterMap (sentTsOf rules last)
      ∧ last < (syncAccount rules last events postOk).2.1.maxTsSent) := by
  rw [syncAccount_maxTsSent]
  rcases foldl_max_mem ((sortEvents events).filterMap (sentTsOf rules last)) 0 with h | h
  · exact Or.inl h
  · refine Or.inr ⟨h, ?_⟩
    obtain ⟨ev, _, hev⟩ := List.mem_filterMap.mp h
    exact sentTsOf_gt_last rules last ev _ hev

/-- The cursor produced by one per-account pass, written out. -/
theorem syncAccount_cursor (rules : Rules) (last : ℚ) (events : List Event) (postOk : Bool) :
    (syncAccount rules last events postOk).1 =
      if (if (syncAccount rules last events postOk).2.1.movies = []
            ∧ (syncAccount rules last events postOk).2.1.episodes = [] then true else postOk)
          ∧ ¬((syncAccount rules last events postOk).2.1.movies = []
            ∧ (syncAccount rules last events postOk).2.1.episodes = []) then
        (if (syncAccount rules last events postOk).2.1.maxTsSent = 0 then last
         else (syncAccount rules last events postOk).2.1.maxTsSent)
      else last := by
  rfl

theorem syncAccount_ok (rules : Rules) (last : ℚ) (events : List Event) (postOk : Bool) :
    (syncAccount rules last events postOk).2.2 =
      if (syncAccount rules last events postOk).2.1.movies = []
          ∧ (syncAccount rules last events postOk).2.1.episodes = [] then true else postOk := by
  rfl

/-- The cursor after one per-account pass is either the old cursor or the
non-zero running maximum. -/
theorem syncAccount_cursor_cases (rules : Rules) (last : ℚ) (events : List Event) (postOk : Bool) :
    (syncAccount rules last events postOk).1 = last
    ∨ ((syncAccount rules last events postOk).1 = (syncAccount rules last events postOk).2.1.maxTsSent
        ∧ (syncAccount rules last events postOk).2.1.maxTsSent ≠ 0) := by
  rw [syncAccount_cursor]
  by_cases hC : ((if ((syncAccount rules last events postOk).2.1.movies = []
        ∧ (syncAccount rules last events postOk).2.1.episodes = []) then true else postOk) = true
      ∧ ¬((syncAccount rules last events postOk).2.1.movies = []
        ∧ (syncAccount rules last events postOk).2.1.episodes = []))
  · rw [if_pos hC]
    by_cases hM : (syncAccount rules last events postOk).2.1.maxTsSent = 0
    · exact Or.inl (if_pos hM)
    · exact Or.inr ⟨if_neg hM, hM⟩
  · exact Or.inl (if_neg hC)

theorem syncAccount_mono (rules : Rules) (last : ℚ) (events : List Event) (postOk : Bool) :
    last ≤ (syncAccount rules last events postOk).1 := by
  rcases syncAccount_cursor_cases rules last events postOk with h | ⟨h, hnz⟩
  · rw [h]
  · rw [h]
    rcases syncAccount_maxTsSent_cases rules last events postOk with h0 | ⟨_, hlt⟩
    · exact absurd h0 hnz
    · exact le_of_lt hlt

theorem syncAccount_cursor_of_post_false (rules : Rules) (last : ℚ) (events : List Event) :
    (syncAccount rules last events false).1 = last := by
  rw [syncAccount_cursor]
  by_cases hE : ((syncAccount rules last events false).2.1.movies = []
      ∧ (syncAccount rules last events false).2.1.episodes = [])
  · exact if_neg (fun hc => hc.2 hE)
  · refine if_neg (fun hc => ?_)
    rw [if_neg hE] at hc
    exact Bool.false_ne_true hc.1

/-- Pointwise cursor monotonicity of a whole sync_events pass. -/
theorem sync_events_cursor_mono (accounts : List (String × Bool)) (account_items : AccountItems)
    (events : List Event) (postOk : String → Bool) :
    ∀ (last_synced : List (String × ℚ)) (u : String),
      (last_synced.lookup u).getD 0 ≤
        ((sync_events accounts account_items last_synced events postOk).lookup u).getD 0 := by
  induction accounts with
  | nil => intro ls u; exact le_refl _
  | cons acc rest ih =>
    intro ls u
    unfold sync_events
    rw [List.foldl_cons]
    have hstep : (ls.lookup u).getD 0 ≤
        (((if acc.2 = false then ls
            else upsert ls acc.1
              (syncAccount ((account_items.lookup acc.1).getD []) ((ls.lookup acc.1).getD 0)
                events (postOk acc.1)).1)).lookup u).getD 0 := by
      by_cases hen : acc.2 = false
      · rw [if_pos hen]
      · rw [if_neg hen]
        by_cases hu : u = acc.1
        · subst hu
          rw [lookup_upsert_self]
          exact syncAccount_mono _ _ _ _
        · rw [lookup_upsert_ne _ _ _ _ hu]
    have htail := ih (if acc.2 = false then ls
        else upsert ls acc.1
          (syncAccount ((account_items.lookup acc.1).getD []) ((ls.lookup acc.1).getD 0)
            events (postOk acc.1)).1) u
    unfold sync_events at htail
    exact le_trans hstep htail

/-- C2: cursors never regress. Over a whole sync_events pass every stored
cursor is monotonically non-decreasing; for one enabled account's pass
with a non-negative cursor last (every cursor the program stores is
non-negative), the cursor changes only when the downstream push succeeded
and at least one event was sent, in which case it becomes the maximum
watchedAtUnix among the sent events; when the push fails, or when both
batches are empty (no request is made and the outcome is reported
successful), the cursor is unchanged. -/
theorem c2_cursor (accounts : List (String × Bool)) (account_items : AccountItems)
    (last_synced : List (String × ℚ)) (events : List Event) (postOkF : String → Bool)
    (rules : Rules) (last : ℚ) (evs : List Event) (postOk : Bool)
    (h0 : 0 ≤ last) :
    (∀ u, (last_synced.lookup u).getD 0 ≤
        ((sync_events accounts account_items last_synced events postOkF).lookup u).getD 0)
    ∧ last ≤ (syncAccount rules last evs postOk).1
    ∧ (syncAccount rules last evs false).1 = last
    ∧ ((syncAccount rules last evs postOk).2.1.movies = []
        ∧ (syncAccount rules last evs postOk).2.1.episodes = [] →
        (syncAccount rules last evs postOk).2.2 = true
          ∧ (syncAccount rules last evs postOk).1 = last)
    ∧ ((syncAccount rules last evs postOk).2.2 = true →
        ¬((syncAccount rules last evs postOk).2.1.movies = []
          ∧ (syncAccount rules last evs postOk).2.1.episodes = []) →
        ((syncAccount rules last evs postOk).1 ∈ sentDates (syncAccount rules last evs postOk).2.1
          ∧ ∀ t ∈ sentDates (syncAccount rules last evs postOk).2.1,
              t ≤ (syncAccount rules last evs postOk).1))
    ∧ ((syncAccount rules last evs postOk).1 ≠ last →
        (syncAccount rules last evs postOk).2.2 = true
          ∧ ¬((syncAccount rules last evs postOk).2.1.movies = []
            ∧ (syncAccount rules last evs postOk).2.1.episodes = [])) := by
  refine ⟨fun u => sync_events_cursor_mono accounts account_items events postOkF last_synced u,
    syncAccount_mono rules last evs postOk,
    syncAccount_cursor_of_post_false rules last evs, ?_, ?_, ?_⟩
  · intro hE
    constructor
    · rw [syncAccount_ok]
      exact if_pos hE
    · rw [syncAccount_cursor]
      exact if_neg (fun hc => hc.2 hE)
  · intro hok hE
    have hD : sentDates (syncAccount rules last evs postOk).2.1 =
        ((sortEvents evs).filterMap (movieRec rules last)).map Prod.snd
          ++ ((sortEvents evs).filterMap (episodeRec rules last)).map Prod.snd := by
      unfold sentDates
      rw [syncAccount_movies, syncAccount_episodes]
    have hperm : ((sortEvents evs).filterMap (sentTsOf rules last)).Perm
        (sentDates (syncAccount rules last evs postOk).2.1) := by
      rw [hD]
      exact sent_perm rules last (sortEvents evs)
    have hDne : sentDates (syncAccount rules last evs postOk).2.1 ≠ [] := by
      intro hnil
      apply hE
      unfold sentDates at hnil
      obtain ⟨h1, h2⟩ := List.append_eq_nil.mp hnil
      exact ⟨List.map_eq_nil_iff.mp h1, List.map_eq_nil_iff.mp h2⟩
    have htsne : ((sortEvents evs).filterMap (sentTsOf rules last)) ≠ [] := by
      intro hnil
      rw [hnil] at hperm
      exact hDne (hperm.symm.eq_nil)
    rcases syncAccount_maxTsSent_cases rules last evs postOk with hz | ⟨hmem, hlt⟩
    · exfalso
      obtain ⟨t, ht⟩ := List.exists_mem_of_ne_nil _ htsne
      have h1 : last < t := by
        obtain ⟨ev, _, hev⟩ := List.mem_filterMap.mp ht
        exact sentTsOf_gt_last rules last ev t hev
      have h2 : t ≤ (syncAccount rules last evs postOk).2.1.maxTsSent := by
        rw [syncAccount_maxTsSent]
        exact mem_le_foldl_max _ 0 t ht
      rw [hz] at h2
      exact absurd (lt_of_lt_of_le h1 h2) (not_lt.mpr h0)
    · have hnz : (syncAccount rules last evs postOk).2.1.maxTsSent ≠ 0 := by
        intro hz
        rw [hz] at hlt
        exact absurd hlt (not_lt.mpr h0)
      have hcond : ((if ((syncAccount rules last evs postOk).2.1.movies = []
            ∧ (syncAccount rules last evs postOk).2.1.episodes = []) then true else postOk) = true
          ∧ ¬((syncAccount rules last evs postOk).2.1.movies = []
            ∧ (syncAccount rules last evs postOk).2.1.episodes = [])) := by
        refine ⟨?_, hE⟩
        rw [if_neg hE]
        have h2 := hok
        rw [syncAccount_ok, if_neg hE] at h2
        exact h2
      have hcur : (syncAccount rules last evs postOk).1 =
          (syncAccount rules last evs postOk).2.1.maxTsSent := by
        rw [syncAccount_cursor, if_pos hcond, if_neg hnz]
      rw [hcur]
      constructor
      · exact (hperm.mem_iff).mp hmem
      · intro t ht
        have hts : t ∈ (sortEvents evs).filterMap (sentTsOf rules last) :=
          (hperm.mem_iff).mpr ht
        rw [syncAccount_maxTsSent]
        exact mem_le_foldl_max _ 0 t hts
  · intro hne
    by_cases hE : ((syncAccount rules last evs postOk).2.1.movies = []
        ∧ (syncAccount rules last evs postOk).2.1.episodes = [])
    · exfalso
      apply hne
      rw [syncAccount_cursor]
      exact if_neg (fun hc => hc.2 hE)
    · refine ⟨?_, hE⟩
      by_cases hok : (syncAccount rules last evs postOk).2.2 = true
      · exact hok
      · exfalso
        apply hne
        rw [syncAccount_cursor]
        refine if_neg (fun hc => hok ?_)
        rw [syncAccount_ok]
        exact hc.1

/-- Witness for C2 at a concrete input: the zero cursor is non-negative
and the per-account pass over one completed movie event never lowers it. -/
theorem c2_cursor_witness :
    (0 : ℚ) ≤ 0
    ∧ (0 : ℚ) ≤ (syncAccount [("tmdb:1", true)] 0
        [{ type := "movie", providerKey := "tmdb:1", groupKey := "g", title := "t",
           seriesName := "", completed := true, date := 5 }] true).1 :=
  ⟨by decide,
    (c2_cursor [("alice", true)] [("alice", [("tmdb:1", true)])] [("alice", 0)]
      [{ type := "movie", providerKey := "tmdb:1", groupKey := "g", title := "t",
         seriesName := "", completed := true, date := 5 }] (fun _ => true)
      [("tmdb:1", true)] 0
      [{ type := "movie", providerKey := "tmdb:1", groupKey := "g", title := "t",
         seriesName := "", completed := true, date := 5 }] true (by decide)).2.1⟩

/-- Two lists that are permutations of one another are empty together. -/
theorem perm_eq_nil_iff {α : Type} {l₁ l₂ : List α} (p : l₁.Perm l₂) : l₁ = [] ↔ l₂ = [] := by
  constructor <;> intro h
  · subst h
    exact p.symm.eq_nil
  · subst h
    exact p.eq_nil

/-- C9: the per-account outcome of sync_events does not depend on the
order the events are supplied in: permuting the input yields the same
multiset of records in the movies batch, the same multiset in the episodes
batch, and the same final cursor (the code sorts by timestamp up front and
every per-event decision is independent of the other events). -/
theorem c9_perm_invariant (rules : Rules) (last : ℚ) (postOk : Bool)
    (l₁ l₂ : List Event) (hp : l₁.Perm l₂) :
    ((syncAccount rules last l₁ postOk).2.1.movies).Perm
        ((syncAccount rules last l₂ postOk).2.1.movies)
    ∧ ((syncAccount rules last l₁ postOk).2.1.episodes).Perm
        ((syncAccount rules last l₂ postOk).2.1.episodes)
    ∧ (syncAccount rules last l₁ postOk).1 = (syncAccount rules last l₂ postOk).1 := by
  have hs : (sortEvents l₁).Perm (sortEvents l₂) :=
    ((List.mergeSort_perm l₁ _).trans hp).trans (List.mergeSort_perm l₂ _).symm
  have hmv : ((syncAccount rules last l₁ postOk).2.1.movies).Perm
      ((syncAccount rules last l₂ postOk).2.1.movies) := by
    rw [syncAccount_movies, syncAccount_movies]
    exact hs.filterMap _
  have hep : ((syncAccount rules last l₁ postOk).2.1.episodes).Perm
      ((syncAccount rules last l₂ postOk).2.1.episodes) := by
    rw [syncAccount_episodes, syncAccount_episodes]
    exact hs.filterMap _
  have hmax : (syncAccount rules last l₁ postOk).2.1.maxTsSent =
      (syncAccount rules last l₂ postOk).2.1.maxTsSent := by
    rw [syncAccount_maxTsSent, syncAccount_maxTsSent]
    exact perm_foldl_max (hs.filterMap _) 0
  have hEiff : ((syncAccount rules last l₁ postOk).2.1.movies = []
        ∧ (syncAccount rules last l₁ postOk).2.1.episodes = []) ↔
      ((syncAccount rules last l₂ postOk).2.1.movies = []
        ∧ (syncAccount rules last l₂ postOk).2.1.episodes = []) :=
    and_congr (perm_eq_nil_iff hmv) (perm_eq_nil_iff hep)
  refine ⟨hmv, hep, ?_⟩
  rw [syncAccount_cursor, syncAccount_cursor, hmax]
  have hcond : (((if ((syncAccount rules last l₁ postOk).2.1.movies = []
          ∧ (syncAccount rules last l₁ postOk).2.1.episodes = []) then true else postOk) = true)
        ∧ ¬((syncAccount rules last l₁ postOk).2.1.movies = []
          ∧ (syncAccount rules last l₁ postOk).2.1.episodes = [])) ↔
      (((if ((syncAccount rules last l₂ postOk).2.1.movies = []
          ∧ (syncAccount rules last l₂ postOk).2.1.episodes = []) then true else postOk) = true)
        ∧ ¬((syncAccount rules last l₂ postOk).2.1.movies = []
          ∧ (syncAccount rules last l₂ postOk).2.1.episodes = [])) := by
    constructor
    · rintro ⟨h1, h2⟩
      have h2' := fun h => h2 (hEiff.mpr h)
      rw [if_neg h2] at h1
      refine ⟨?_, h2'⟩
      rw [if_neg h2']
      exact h1
    · rintro ⟨h1, h2⟩
      have h2' := fun h => h2 (hEiff.mp h)
      rw [if_neg h2] at h1
      refine ⟨?_, h2'⟩
      rw [if_neg h2']
      exact h1
  exact if_congr hcond rfl rfl

/-- Witness for C9 at a concrete input: swapping a movie and an episode
event gives permuted batches and the same cursor. -/
theorem c9_perm_invariant_witness :
    ([c9EvA, c9EvB].Perm [c9EvB, c9EvA])
    ∧ (((syncAccount [("tmdb:1", true), ("tmdb:2", true)] 0 [c9EvA, c9EvB] true).2.1.movies).Perm
          ((syncAccount [("tmdb:1", true), ("tmdb:2", true)] 0 [c9EvB, c9EvA] true).2.1.movies)
      ∧ ((syncAccount [("tmdb:1", true), ("tmdb:2", true)] 0 [c9EvA, c9EvB] true).2.1.episodes).Perm
          ((syncAccount [("tmdb:1", true), ("tmdb:2", true)] 0 [c9EvB, c9EvA] true).2.1.episodes)
      ∧ (syncAccount [("tmdb:1", true), ("tmdb:2", true)] 0 [c9EvA, c9EvB] true).1 =
          (syncAccount [("tmdb:1", true), ("tmdb:2", true)] 0 [c9EvB, c9EvA] true).1) :=
  ⟨List.Perm.swap c9EvB c9EvA [],
    c9_perm_invariant [("tmdb:1", true), ("tmdb:2", true)] 0 true [c9EvA, c9EvB] [c9EvB, c9EvA]
      (List.Perm.swap c9EvB c9EvA [])⟩

end Scrobbler
